import Mathlib

/-!
Verification of the geoquizz map data model (MapModel.js, PlaceFinderModel.js)
against its natural-language specification.  JS `Map` objects are embedded as
association lists in insertion order; JS `Set` values as duplicate-free lists;
string keys are compared exactly, as JS `Map.get` does.
-/

namespace Geoquizz

/-- JS `Map.get`: first entry with the exact key, if any. -/
def mapGet {α : Type} (m : List (String × α)) (k : String) : Option α :=
  (m.find? (fun e => e.1 == k)).map (·.2)

/-- JS `Map.has`. -/
def hasKey {α : Type} (m : List (String × α)) (k : String) : Bool :=
  (mapGet m k).isSome

/-- Country record as built by `MapModel._processCountryPaths`. -/
structure Country where
  cid : String
  name : String
  fill : String
  paths : List String
  selected : Bool
  isStart : Bool
  isEnd : Bool
  continent : String
deriving DecidableEq, Repr

/-- State of `MapModel` (the fields the verified operations touch). -/
structure MapState where
  countries : List (String × Country) := []
  adjacencyMap : List (String × List String) := []
  continentMap : List (String × String) := []
  countriesList : List String := []
  validPairs : List (String × String) := []
  regionCountries : List (String × List String) := []
  namedCountries : List String := []
  currentRegion : Option String := none
  svgLoaded : Bool := false
deriving DecidableEq

/-- `MapModel._loadAdjacencyData`: each raw entry `country -> neighbors` is
stored as `Map.set(country, new Set(neighbors))`; the JS `Set` keeps the first
occurrence of each neighbor. -/
def buildAdjacency (raw : List (String × List String)) : List (String × List String) :=
  raw.map (fun e => (e.1, e.2.eraseDups))

/-- `MapModel.isAdjacent`: false when either country has no entry, else true
iff either direction is recorded. -/
def isAdjacent (adjacencyMap : List (String × List String)) (c1 c2 : String) : Bool :=
  match mapGet adjacencyMap c1, mapGet adjacencyMap c2 with
  | some n1, some n2 => n1.contains c2 || n2.contains c1
  | _, _ => false

end Geoquizz

namespace Geoquizz

/-- Claim C2: `isAdjacent(a,b)` returns false when either `a` or `b` has no
entry in the adjacency map; when both have entries it returns true iff `b` is
in `a`'s neighbor set or `a` is in `b`'s neighbor set. -/
theorem isAdjacent_spec : ∀ (adj : List (String × List String)) (a b : String),
    ((mapGet adj a = none ∨ mapGet adj b = none) → isAdjacent adj a b = false) ∧
    (∀ na nb, mapGet adj a = some na → mapGet adj b = some nb →
      (isAdjacent adj a b = true ↔ (na.contains b = true ∨ nb.contains a = true))) := by
  intro adj a b
  constructor
  · intro h
    rcases h with h | h <;> simp [isAdjacent, h]
  · intro na nb ha hb
    simp [isAdjacent, ha, hb, Bool.or_eq_true]

/-- Witness for C2 on a concrete two-entry adjacency map. -/
theorem isAdjacent_spec_witness :
    isAdjacent (buildAdjacency [("France", ["Germany"]), ("Germany", [])]) "France" "Germany" = true ∧
    isAdjacent (buildAdjacency [("France", ["Germany"]), ("Germany", [])]) "Germany" "Spain" = false := by
  refine ⟨?_, ?_⟩
  · exact ((isAdjacent_spec (buildAdjacency [("France", ["Germany"]), ("Germany", [])])
      "France" "Germany").2 ["Germany"] [] (by decide) (by decide)).mpr (Or.inl (by decide))
  · exact (isAdjacent_spec (buildAdjacency [("France", ["Germany"]), ("Germany", [])])
      "Germany" "Spain").1 (Or.inr (by decide))

/-- Counterexample to claim C1 as stated: with adjacency data
`{"France": ["Germany","Spain"]}` and no other entries, `"Germany"` has no
entry in the built map, so both query directions return false, not true. -/
theorem isAdjacent_oneWay_counterexample :
    isAdjacent (buildAdjacency [("France", ["Germany", "Spain"])]) "Germany" "France" = false ∧
    isAdjacent (buildAdjacency [("France", ["Germany", "Spain"])]) "France" "Germany" = false := by
  decide

/-- Claim C1 (amended): for every pair `(a,b)` such that `b` is recorded in
`a`'s neighbor list, provided both `a` and `b` have entries in the adjacency
map, `isAdjacent(a,b)` and `isAdjacent(b,a)` both return true. -/
theorem isAdjacent_oneWay_symm : ∀ (adj : List (String × List String)) (a b : String)
    (na nb : List String), mapGet adj a = some na → mapGet adj b = some nb →
    na.contains b = true →
    isAdjacent adj a b = true ∧ isAdjacent adj b a = true := by
  intro adj a b na nb ha hb hmem
  have hbna : b ∈ na := by simpa using hmem
  constructor
  · simp only [isAdjacent, ha, hb]
    simp [hbna]
  · simp only [isAdjacent, ha, hb]
    simp [hbna]

/-- Witness for amended C1: data records only France → Germany, Germany has an
(empty) entry, and both query directions return true. -/
theorem isAdjacent_oneWay_symm_witness :
    isAdjacent (buildAdjacency [("France", ["Germany", "Spain"]), ("Germany", [])]) "France" "Germany" = true ∧
    isAdjacent (buildAdjacency [("France", ["Germany", "Spain"]), ("Germany", [])]) "Germany" "France" = true :=
  isAdjacent_oneWay_symm (buildAdjacency [("France", ["Germany", "Spain"]), ("Germany", [])])
    "France" "Germany" ["Germany", "Spain"] [] (by decide) (by decide) (by decide)

/-- `MapModel.setRegion`: sets the current region for "Name Them All".  An
existing region is selected directly (clearing the named-country set); the
special name "World" is additionally created on demand with all countries;
any other unknown region leaves the state untouched and reports failure.  The
returned pair is (success flag, state after the call). -/
def setRegion (st : MapState) (region : String) : Bool × MapState :=
  if hasKey st.regionCountries region then
    (true, { st with currentRegion := some region, namedCountries := [] })
  else if region = "World" then
    (true, { st with currentRegion := some "World", namedCountries := [],
                     regionCountries := st.regionCountries ++ [("World", st.countriesList)] })
  else
    (false, st)

theorem mapGet_append {α : Type} (m1 m2 : List (String × α)) (k : String) :
    mapGet (m1 ++ m2) k = (mapGet m1 k).orElse (fun _ => mapGet m2 k) := by
  induction m1 with
  | nil => simp [mapGet]
  | cons e t ih =>
    by_cases h : e.1 = k
    · simp [mapGet, List.find?, h]
    · have hb : (e.1 == k) = false := by simpa using h
      simpa [mapGet, List.find?, hb] using ih

end Geoquizz

namespace Geoquizz

/-- Claim C5: `setRegion` returns true exactly when the requested region
exists in the region index or is the special name "World" (created on demand
with all countries when missing); on success the named-country set is cleared
and the current region becomes the requested one; on failure the whole state,
in particular the current region and the named-country set, is unchanged. -/
theorem setRegion_spec : ∀ (st : MapState) (region : String),
    ((setRegion st region).1 = true ↔
      (hasKey st.regionCountries region = true ∨ region = "World")) ∧
    ((setRegion st region).1 = true →
      (setRegion st region).2.namedCountries = [] ∧
      (setRegion st region).2.currentRegion = some region) ∧
    ((setRegion st region).1 = false → (setRegion st region).2 = st) ∧
    (region = "World" → hasKey st.regionCountries "World" = false →
      mapGet (setRegion st region).2.regionCountries "World" = some st.countriesList) := by
  intro st region
  by_cases h1 : hasKey st.regionCountries region = true
  · refine ⟨by simp [setRegion, h1], by simp [setRegion, h1], by simp [setRegion, h1], ?_⟩
    intro hW hmiss
    rw [hW] at h1
    exact absurd h1 (by simp [hmiss])
  · by_cases h2 : region = "World"
    · subst h2
      refine ⟨by simp [setRegion, h1], by simp [setRegion, h1],
        by simp [setRegion, h1], ?_⟩
      intro _ hmiss
      have hnone : mapGet st.regionCountries "World" = none := by
        simpa [hasKey, Option.isSome_iff_exists] using hmiss
      have hreg : (setRegion st "World").2.regionCountries
          = st.regionCountries ++ [("World", st.countriesList)] := by
        simp [setRegion, h1]
      rw [hreg, mapGet_append, hnone]
      rfl
    · exact ⟨by simp [setRegion, h1, h2], by simp [setRegion, h1, h2],
        by simp [setRegion, h1, h2], by intro hW; exact absurd hW h2⟩

/-- The `specialCases` alias table of `MapModel.getCountryByName`, in source
order. -/
def specialCases : List (String × String) :=
  [("usa", "United States"), ("united states of america", "United States"),
   ("uk", "United Kingdom"), ("great britain", "United Kingdom"),
   ("england", "United Kingdom"), ("holland", "Netherlands"),
   ("macedonia", "North Macedonia"), ("czechia", "Czech Republic"),
   ("russia", "Russia"), ("america", "United States"),
   ("uae", "United Arab Emirates")]

/-- ASCII case folding of one character, the fragment of JS `toLowerCase`
exercised by country names. -/
def lowerChar (c : Char) : Char :=
  if 65 ≤ c.toNat ∧ c.toNat ≤ 90 then Char.ofNat (c.toNat + 32) else c

/-- JS `String.prototype.toLowerCase` on the ASCII fragment. -/
def lowerString (s : String) : String :=
  ⟨s.data.map lowerChar⟩

/-- Whitespace as stripped by JS `String.prototype.trim`. -/
def isWsp (c : Char) : Bool :=
  c = ' ' || c = '\t' || c = '\n' || c = '\r'

/-- JS `String.prototype.trim`: strip leading and trailing whitespace. -/
def trimString (s : String) : String :=
  ⟨((s.data.dropWhile isWsp).reverse.dropWhile isWsp).reverse⟩

/-- `name.trim().toLowerCase()` as used by `getCountryByName`. -/
def normalizeName (s : String) : String :=
  lowerString (trimString s)

/-- The final loop of `getCountryByName`: scan every region's member list for
a case-insensitive name match and return the registry record stored under the
member's exact-cased name, continuing the scan when no record exists. -/
def regionScan (st : MapState) (normalized : String) : Option Country :=
  st.regionCountries.findSome? (fun r =>
    r.2.findSome? (fun cn =>
      if lowerString cn = normalized then mapGet st.countries cn else none))

/-- `MapModel.getCountryByName`: empty input resolves to nothing; otherwise
the trimmed lowercased input is matched case-insensitively against the
registry, then against the alias table (whose target is looked up with exact
case), and finally — only when a region named "Europe" is loaded — by the
region scan. -/
def getCountryByName (st : MapState) (nm : String) : Option Country :=
  if nm = "" then none
  else
    let normalized := normalizeName nm
    match st.countries.find? (fun e => lowerString e.1 == normalized) with
    | some e => some e.2
    | none =>
      let viaAlias :=
        match mapGet specialCases normalized with
        | some official => mapGet st.countries official
        | none => none
      match viaAlias with
      | some c => some c
      | none =>
        if hasKey st.regionCountries "Europe" then regionScan st normalized
        else none

theorem getCountryByName_alias (st : MapState) (nm official : String) (rec : Country)
    (hne : ¬ nm = "")
    (hdirect : ∀ e ∈ st.countries, ¬ lowerString e.1 = normalizeName nm)
    (halias : mapGet specialCases (normalizeName nm) = some official)
    (hoff : mapGet st.countries official = some rec) :
    getCountryByName st nm = some rec := by
  have hfind : st.countries.find? (fun e => lowerString e.1 == normalizeName nm) = none :=
    List.find?_eq_none.mpr (fun e he => by simpa using hdirect e he)
  simp [getCountryByName, hne, hfind, halias, hoff]

theorem regionScan_eq_none (st : MapState) (normalized : String)
    (hdirect : ∀ e ∈ st.countries, ¬ lowerString e.1 = normalized) :
    regionScan st normalized = none := by
  rw [regionScan, List.findSome?_eq_none_iff]
  intro r _
  rw [List.findSome?_eq_none_iff]
  intro cn _
  by_cases hc : lowerString cn = normalized
  · simp only [if_pos hc]
    cases hg : mapGet st.countries cn with
    | none => rfl
    | some c =>
      exfalso
      have hex : ∃ e, st.countries.find? (fun x => x.1 == cn) = some e ∧ e.2 = c := by
        cases hf : st.countries.find? (fun x => x.1 == cn) with
        | none => rw [mapGet, hf] at hg; exact absurd hg (by simp)
        | some e => rw [mapGet, hf] at hg; exact ⟨e, rfl, by simpa using hg⟩
      obtain ⟨e, hfind, _⟩ := hex
      have hmem := List.mem_of_find?_eq_some hfind
      have hkey : e.1 = cn := by simpa using List.find?_some hfind
      exact hdirect e hmem (hkey ▸ hc)
  · simp [if_neg hc]

end Geoquizz

namespace Geoquizz

/-- Claim C3: with "United States" present in the registry and no registry
name that lowercases to "usa", resolving "usa", "UsA" and " usa " each
returns exactly the record the registry stores under "United States"
(alias resolution, invariant under case and surrounding whitespace). -/
theorem resolve_usa_alias : ∀ (st : MapState) (rec : Country),
    mapGet st.countries "United States" = some rec →
    (∀ e ∈ st.countries, ¬ lowerString e.1 = "usa") →
    getCountryByName st "usa" = some rec ∧
    getCountryByName st "UsA" = some rec ∧
    getCountryByName st " usa " = some rec := by
  intro st rec hus hno
  refine ⟨?_, ?_, ?_⟩
  · exact getCountryByName_alias st "usa" "United States" rec (by decide)
      (by rw [show normalizeName "usa" = "usa" from rfl]; exact hno) rfl hus
  · exact getCountryByName_alias st "UsA" "United States" rec (by decide)
      (by rw [show normalizeName "UsA" = "usa" from rfl]; exact hno) rfl hus
  · exact getCountryByName_alias st " usa " "United States" rec (by decide)
      (by rw [show normalizeName " usa " = "usa" from rfl]; exact hno) rfl hus

/-- Registry record used by the concrete resolution examples. -/
def usRec : Country :=
  { cid := "us", name := "United States", fill := "#ececec",
    paths := ["M0 0"], selected := false, isStart := false, isEnd := false,
    continent := "North America" }

/-- A concrete registry holding "United States" only. -/
def usSt : MapState := { countries := [("United States", usRec)] }

/-- Witness for C3 on the concrete one-country registry. -/
theorem resolve_usa_alias_witness :
    getCountryByName usSt "usa" = some usRec ∧
    getCountryByName usSt "UsA" = some usRec ∧
    getCountryByName usSt " usa " = some usRec :=
  resolve_usa_alias usSt usRec rfl (by decide)

/-- Registry record used by the region-scan counterexample. -/
def frRec : Country :=
  { cid := "fr", name := "France", fill := "#ececec",
    paths := ["M1 1"], selected := false, isStart := false, isEnd := false,
    continent := "Europe" }

/-- Concrete state for the C4 counterexample: the registry holds only
"France", while the region lists (including World) name "Francia". -/
def c4St : MapState :=
  { countries := [("France", frRec)],
    regionCountries := [("Europe", ["Francia"]), ("World", ["Francia"])] }

/-- Counterexample to claim C4 as stated: the input "francia" matches no
registry name and no alias, and matches the member "Francia" of the loaded
regions (including World), yet resolution returns nothing — the region scan
can only return records stored under the member's exact-cased name, and no
such registry record exists precisely when the direct match failed. -/
theorem regionScan_fallback_counterexample :
    getCountryByName c4St "francia" = none ∧
    lowerString "Francia" = "francia" ∧
    mapGet c4St.regionCountries "Europe" = some ["Francia"] ∧
    mapGet c4St.regionCountries "World" = some ["Francia"] ∧
    c4St.countries.all (fun e => !(lowerString e.1 == "francia")) = true ∧
    mapGet specialCases "francia" = none := by
  refine ⟨by decide, by decide, by decide, by decide, by decide, by decide⟩

/-- Claim C4 (amended): for every input whose trimmed lowercased form matches
no registry country name (case-insensitively) and no alias-table entry,
name resolution returns not-found regardless of the loaded regions: the
region-scan fallback (which moreover only runs when a region named "Europe"
exists) can succeed only under a member name that is itself a registry key
matching the input case-insensitively, contradicting the premise. -/
theorem resolve_noRegistryMatch_none : ∀ (st : MapState) (nm : String),
    (∀ e ∈ st.countries, ¬ lowerString e.1 = normalizeName nm) →
    mapGet specialCases (normalizeName nm) = none →
    getCountryByName st nm = none := by
  intro st nm hdirect halias
  by_cases hne : nm = ""
  · simp [getCountryByName, hne]
  · have hfind : st.countries.find? (fun e => lowerString e.1 == normalizeName nm) = none :=
      List.find?_eq_none.mpr (fun e he => by simpa using hdirect e he)
    have hscan := regionScan_eq_none st (normalizeName nm) hdirect
    rw [getCountryByName, if_neg hne]
    simp only [hfind, halias, hscan]
    split <;> rfl

/-- Witness for amended C4: on the concrete C4 state, the unmatched input
"atlantis" resolves to nothing. -/
theorem resolve_noRegistryMatch_none_witness :
    getCountryByName c4St "atlantis" = none :=
  resolve_noRegistryMatch_none c4St "atlantis" (by decide) (by decide)

/-- First phase of `MapModel._generateRandomCountryPair`: up to 100 random
draws from the country list looking for a country with a non-empty adjacency
entry; `picks k` is the random index drawn at attempt `k`. -/
def tryFindStart (st : MapState) (picks : Nat → Nat) : Option String :=
  (List.range 100).findSome? (fun k =>
    let c := st.countriesList.getD (picks k % st.countriesList.length) ""
    match mapGet st.adjacencyMap c with
    | some ns => if ns.isEmpty then none else some c
    | none => none)

/-- The candidate end countries: different from the start and either in the
same non-"Unknown" continent or adjacent to the start. -/
def endCandidates (st : MapState) (startName : String) : List String :=
  st.countriesList.filter (fun c =>
    (c != startName) &&
    (((mapGet st.continentMap c == mapGet st.continentMap startName) &&
      (mapGet st.continentMap startName != some "Unknown")) ||
      isAdjacent st.adjacencyMap startName c))

/-- The last-resort candidate list: every country except the start. -/
def nonStartCandidates (st : MapState) (startName : String) : List String :=
  st.countriesList.filter (fun c => c != startName)

/-- `MapModel._generateRandomCountryPair`: find a start country with
adjacencies (or fall back to the first two countries), then draw the end
country from the candidate list, or from all other countries when no
candidate passes the filter.  `endPick` is the random draw for the end
country. -/
def generateRandomCountryPair (st : MapState) (picks : Nat → Nat) (endPick : Nat) :
    Option (String × String) :=
  match tryFindStart st picks with
  | none =>
    if 2 ≤ st.countriesList.length then
      some (st.countriesList.getD 0 "", st.countriesList.getD 1 "")
    else none
  | some startName =>
    if (endCandidates st startName).isEmpty then
      if (nonStartCandidates st startName).isEmpty then none
      else some (startName, (nonStartCandidates st startName).getD
        (endPick % (nonStartCandidates st startName).length) "")
    else
      some (startName, (endCandidates st startName).getD
        (endPick % (endCandidates st startName).length) "")

/-- `MapModel.getRandomCountryPair`: nothing before the map is loaded; a
curated pair when the catalog is non-empty and the drawn pair's countries
both exist; otherwise the random fallback. -/
def getRandomCountryPair (st : MapState) (picks : Nat → Nat) (endPick pairPick : Nat) :
    Option (String × String) :=
  if !st.svgLoaded || st.countries.isEmpty then none
  else if st.validPairs.isEmpty then generateRandomCountryPair st picks endPick
  else
    if hasKey st.countries (st.validPairs.getD (pairPick % st.validPairs.length) ("", "")).1
       && hasKey st.countries (st.validPairs.getD (pairPick % st.validPairs.length) ("", "")).2 then
      some (st.validPairs.getD (pairPick % st.validPairs.length) ("", ""))
    else generateRandomCountryPair st picks endPick

theorem getD_mod_mem {α : Type} (l : List α) (k : Nat) (d : α)
    (h : l.isEmpty = false) : l.getD (k % l.length) d ∈ l := by
  have hne : l ≠ [] := by cases l <;> simp_all
  have hlen : 0 < l.length := List.length_pos.mpr hne
  have hk : k % l.length < l.length := Nat.mod_lt _ hlen
  rw [List.getD_eq_getElem?_getD, List.getElem?_eq_getElem hk, Option.getD_some]
  exact List.getElem_mem hk

theorem generate_start_ne_end (st : MapState) (picks : Nat → Nat) (endPick : Nat)
    (s e : String) (hnd : st.countriesList.Nodup)
    (hres : generateRandomCountryPair st picks endPick = some (s, e)) : s ≠ e := by
  rw [generateRandomCountryPair] at hres
  split at hres
  · split at hres
    · rename_i hlen
      have hpair : (st.countriesList.getD 0 "", st.countriesList.getD 1 "") = (s, e) := by
        simpa using hres
      cases hpair
      have h0 : (0 : Nat) < st.countriesList.length := by omega
      have h1 : (1 : Nat) < st.countriesList.length := by omega
      rw [List.getD_eq_getElem?_getD, List.getD_eq_getElem?_getD,
          List.getElem?_eq_getElem h0, List.getElem?_eq_getElem h1,
          Option.getD_some, Option.getD_some]
      intro hEq
      exact absurd (hnd.getElem_inj_iff.mp hEq) (by omega)
    · exact absurd hres (by simp)
  · rename_i startName heq
    split at hres
    · rename_i hend
      split at hres
      · exact absurd hres (by simp)
      · rename_i hnon
        have hnon' : (nonStartCandidates st startName).isEmpty = false := by
          simpa using hnon
        have hpair : (startName, (nonStartCandidates st startName).getD
            (endPick % (nonStartCandidates st startName).length) "") = (s, e) := by
          simpa using hres
        cases hpair
        have hmem := getD_mod_mem (nonStartCandidates st s) endPick "" hnon'
        have hpred := (List.mem_filter.mp hmem).2
        intro hEq
        rw [← hEq] at hpred
        simp at hpred
    · rename_i hend
      have hend' : (endCandidates st startName).isEmpty = false := by
        simpa using hend
      have hpair : (startName, (endCandidates st startName).getD
          (endPick % (endCandidates st startName).length) "") = (s, e) := by
        simpa using hres
      cases hpair
      have hmem := getD_mod_mem (endCandidates st s) endPick "" hend'
      have hpred := (List.mem_filter.mp hmem).2
      intro hEq
      rw [← hEq] at hpred
      simp at hpred

end Geoquizz

namespace Geoquizz

/-- A country record carrying only a name, for the random-pair examples. -/
def dummyCountry (n : String) : Country :=
  { cid := "", name := n, fill := "#ececec", paths := ["M0 0"],
    selected := false, isStart := false, isEnd := false, continent := "Unknown" }

/-- Concrete state for the C9 counterexample: three loaded countries, all of
continent "Unknown"; "A" lists "B" as neighbor but "B" has no adjacency
entry; the curated pair list is empty. -/
def c9St : MapState :=
  { countries := [("A", dummyCountry "A"), ("B", dummyCountry "B"), ("C", dummyCountry "C")],
    adjacencyMap := [("A", ["B"])],
    continentMap := [("A", "Unknown"), ("B", "Unknown"), ("C", "Unknown")],
    countriesList := ["A", "B", "C"],
    svgLoaded := true }

/-- Counterexample to claim C9 as stated: with an empty curated list and a
non-trivial adjacency graph ("A" has the non-empty neighbor set ["B"]), the
random-pair operation can return ("A","B") although `isAdjacent("A","B")` is
false (no entry for "B") and both countries carry the classification
"Unknown", so neither disjunct of the claimed guarantee holds. -/
theorem randomPair_fallback_counterexample :
    getRandomCountryPair c9St (fun _ => 0) 0 0 = some ("A", "B") ∧
    c9St.validPairs = [] ∧
    mapGet c9St.adjacencyMap "A" = some ["B"] ∧
    isAdjacent c9St.adjacencyMap "A" "B" = false ∧
    mapGet c9St.continentMap "A" = some "Unknown" ∧
    mapGet c9St.continentMap "B" = some "Unknown" := by
  refine ⟨by decide, rfl, by decide, by decide, by decide, by decide⟩

/-- Claim C9 (amended): with an empty curated list, every pair the
random-pair operation returns has distinct start and end countries (the
country list has no duplicate names); the adjacency-or-same-classification
guarantee holds only for pairs drawn from the candidate filter, not for the
attempt-exhaustion and filter-miss fallbacks, which may return an arbitrary
different country. -/
theorem randomPair_start_ne_end : ∀ (st : MapState) (picks : Nat → Nat)
    (endPick pairPick : Nat) (s e : String),
    st.countriesList.Nodup →
    st.validPairs = [] →
    getRandomCountryPair st picks endPick pairPick = some (s, e) →
    s ≠ e := by
  intro st picks endPick pairPick s e hnd hvp hres
  rw [getRandomCountryPair] at hres
  by_cases hguard : (!st.svgLoaded || st.countries.isEmpty) = true
  · rw [if_pos hguard] at hres
    exact absurd hres (by simp)
  · rw [if_neg hguard, if_pos (by rw [hvp]; rfl)] at hres
    exact generate_start_ne_end st picks endPick s e hnd hres

/-- Witness for amended C9 on the concrete C9 state. -/
theorem randomPair_start_ne_end_witness :
    getRandomCountryPair c9St (fun _ => 0) 1 0 = some ("A", "C") ∧ "A" ≠ "C" := by
  refine ⟨by decide, ?_⟩
  exact randomPair_start_ne_end c9St (fun _ => 0) 1 0 "A" "C" (by decide) rfl (by decide)

/-- Degrees to radians (`PlaceFinderModel._toRadians`). -/
noncomputable def toRadians (degrees : ℝ) : ℝ :=
  degrees * (Real.pi / 180)

/-- `PlaceFinderModel.coordinatesToCanvasPoint`: longitude maps linearly to
x; latitude maps to y through the Mercator transform
`mercN = ln(tan(π/4 + latRad/2))`, `y = ((1 - mercN/π)/2)·height`. -/
noncomputable def coordinatesToCanvasPoint (latitude longitude mapWidth mapHeight : ℝ) :
    ℝ × ℝ :=
  (((longitude + 180) / 360) * mapWidth,
   ((1 - Real.log (Real.tan (Real.pi / 4 + toRadians latitude / 2)) / Real.pi) / 2) * mapHeight)

/-- `PlaceFinderModel.canvasPointToCoordinates`: the inverse mapping,
returned as (latitude, longitude). -/
noncomputable def canvasPointToCoordinates (x y mapWidth mapHeight : ℝ) : ℝ × ℝ :=
  ((2 * Real.arctan (Real.exp (Real.pi * (1 - 2 * (y / mapHeight)))) - Real.pi / 2)
      * (180 / Real.pi),
   (x / mapWidth) * 360 - 180)

theorem mercator_y_roundTrip (lat h : ℝ) (hl1 : -89 < lat) (hl2 : lat < 89)
    (hh : h ≠ 0) :
    (2 * Real.arctan (Real.exp (Real.pi * (1 - 2 *
        ((((1 - Real.log (Real.tan (Real.pi / 4 + toRadians lat / 2)) / Real.pi) / 2) * h) / h))))
      - Real.pi / 2) * (180 / Real.pi) = lat := by
  have hpi := Real.pi_pos
  have hpine : Real.pi ≠ 0 := ne_of_gt hpi
  have hdiv : (((1 - Real.log (Real.tan (Real.pi / 4 + toRadians lat / 2)) / Real.pi) / 2) * h) / h
      = (1 - Real.log (Real.tan (Real.pi / 4 + toRadians lat / 2)) / Real.pi) / 2 :=
    mul_div_cancel_right₀ _ hh
  rw [hdiv]
  have hmerc : Real.pi * (1 - 2 *
      ((1 - Real.log (Real.tan (Real.pi / 4 + toRadians lat / 2)) / Real.pi) / 2))
      = Real.log (Real.tan (Real.pi / 4 + toRadians lat / 2)) := by
    field_simp
    ring
  rw [hmerc]
  have hth0 : 0 < Real.pi / 4 + toRadians lat / 2 := by
    rw [toRadians]
    nlinarith
  have hth2 : Real.pi / 4 + toRadians lat / 2 < Real.pi / 2 := by
    rw [toRadians]
    nlinarith
  rw [Real.exp_log (Real.tan_pos_of_pos_of_lt_pi_div_two hth0 hth2),
      Real.arctan_tan (by linarith) hth2]
  rw [toRadians]
  field_simp
  ring

end Geoquizz

namespace Geoquizz

/-- Claim C8: for every latitude in (-89,89) and longitude in (-180,180), and
any non-degenerate canvas size, projecting to a canvas point and back
recovers the coordinates within 1e-6 (in fact exactly, over the reals). -/
theorem projection_roundTrip : ∀ (lat lon w h : ℝ),
    -89 < lat → lat < 89 → -180 < lon → lon < 180 → w ≠ 0 → h ≠ 0 →
    |(canvasPointToCoordinates (coordinatesToCanvasPoint lat lon w h).1
        (coordinatesToCanvasPoint lat lon w h).2 w h).1 - lat| ≤ 1e-6 ∧
    |(canvasPointToCoordinates (coordinatesToCanvasPoint lat lon w h).1
        (coordinatesToCanvasPoint lat lon w h).2 w h).2 - lon| ≤ 1e-6 := by
  intro lat lon w h hlat1 hlat2 hlon1 hlon2 hw hh
  have hlat' : (canvasPointToCoordinates (coordinatesToCanvasPoint lat lon w h).1
      (coordinatesToCanvasPoint lat lon w h).2 w h).1 = lat := by
    show (2 * Real.arctan (Real.exp (Real.pi * (1 - 2 *
        ((((1 - Real.log (Real.tan (Real.pi / 4 + toRadians lat / 2)) / Real.pi) / 2) * h) / h))))
      - Real.pi / 2) * (180 / Real.pi) = lat
    exact mercator_y_roundTrip lat h hlat1 hlat2 hh
  have hlon' : (canvasPointToCoordinates (coordinatesToCanvasPoint lat lon w h).1
      (coordinatesToCanvasPoint lat lon w h).2 w h).2 = lon := by
    show ((((lon + 180) / 360) * w) / w) * 360 - 180 = lon
    rw [mul_div_cancel_right₀ _ hw]
    ring
  rw [hlat', hlon']
  norm_num

/-- Witness for C8 at latitude 0, longitude 0 on a unit canvas. -/
theorem projection_roundTrip_witness :
    |(canvasPointToCoordinates (coordinatesToCanvasPoint 0 0 1 1).1
        (coordinatesToCanvasPoint 0 0 1 1).2 1 1).1 - 0| ≤ 1e-6 ∧
    |(canvasPointToCoordinates (coordinatesToCanvasPoint 0 0 1 1).1
        (coordinatesToCanvasPoint 0 0 1 1).2 1 1).2 - 0| ≤ 1e-6 :=
  projection_roundTrip 0 0 1 1 (by norm_num) (by norm_num) (by norm_num)
    (by norm_num) (by norm_num) (by norm_num)

/-- A place of the "Find the Place" mode, with pre-baked canvas
coordinates as in `PlaceFinderModel.recordPlayerGuess` (coordinates.x/y). -/
structure Place where
  pname : String
  coordX : ℝ
  coordY : ℝ

/-- A recorded guess (`pin`) of `recordPlayerGuess`. -/
structure Pin where
  placeName : String
  playerX : ℝ
  playerY : ℝ
  actualX : ℝ
  actualY : ℝ
  dist : ℝ
  score : ℤ
  round : Nat

/-- State of `PlaceFinderModel` (the fields the verified operation touches). -/
structure PFState where
  currentPlace : Option Place := none
  currentRound : Nat := 0
  playerPins : List Pin := []
  scores : List ℤ := []

/-- `PlaceFinderModel._calculateCanvasDistance`: Euclidean pixel distance
scaled by the 2.5 pixels-to-km factor. -/
noncomputable def calculateCanvasDistance (x1 y1 x2 y2 : ℝ) : ℝ :=
  Real.sqrt ((x2 - x1) ^ 2 + (y2 - y1) ^ 2) * 2.5

/-- `PlaceFinderModel._calculateScore` with `maxDistance = 3000`:
`Math.round(1000 * e^(-distance/3000))`; `Math.round` on a non-negative
value is `⌊x + 1/2⌋`. -/
noncomputable def calculateScore (distance : ℝ) : ℤ :=
  ⌊1000 * Real.exp (-distance / 3000) + 1 / 2⌋

/-- `PlaceFinderModel.recordPlayerGuess`: `none` (state unchanged) when no
current place is set; otherwise compute distance and score and append the
pin and the score to the session lists. -/
noncomputable def recordPlayerGuess (st : PFState) (x y : ℝ) : Option Pin × PFState :=
  match st.currentPlace with
  | none => (none, st)
  | some p =>
    let dist := calculateCanvasDistance x y p.coordX p.coordY
    let score := calculateScore dist
    let pin : Pin := ⟨p.pname, x, y, p.coordX, p.coordY, dist, score, st.currentRound⟩
    (some pin, { st with playerPins := st.playerPins ++ [pin],
                         scores := st.scores ++ [score] })

theorem calculateScore_bounds (distance : ℝ) (hd : 0 ≤ distance) :
    0 ≤ calculateScore distance ∧ calculateScore distance ≤ 1000 := by
  have hexp0 : 0 < Real.exp (-distance / 3000) := Real.exp_pos _
  have hexp1 : Real.exp (-distance / 3000) ≤ 1 := by
    rw [Real.exp_le_one_iff]
    have : 0 ≤ distance / 3000 := div_nonneg hd (by norm_num)
    linarith
  simp only [calculateScore]
  constructor
  · apply Int.le_floor.mpr
    push_cast
    nlinarith
  · have hlt : (1000 : ℝ) * Real.exp (-distance / 3000) + 1 / 2 < ((1001 : ℤ) : ℝ) := by
      push_cast
      nlinarith
    have := Int.floor_lt.mpr hlt
    omega

theorem calculateCanvasDistance_nonneg (x1 y1 x2 y2 : ℝ) :
    0 ≤ calculateCanvasDistance x1 y1 x2 y2 :=
  mul_nonneg (Real.sqrt_nonneg _) (by norm_num)

end Geoquizz

namespace Geoquizz

/-- Claim C10: with a current place set, every score `recordPlayerGuess`
stores — and hence, inductively, every element of the per-round score list —
is an integer between 0 and 1000 inclusive. -/
theorem recordPlayerGuess_score_bounds : ∀ (st : PFState) (x y : ℝ) (p : Place),
    st.currentPlace = some p →
    (∀ s ∈ st.scores, 0 ≤ s ∧ s ≤ 1000) →
    ∀ s ∈ (recordPlayerGuess st x y).2.scores, 0 ≤ s ∧ s ≤ 1000 := by
  intro st x y p hcp hprev s hs
  have hs' : s ∈ st.scores ++
      [calculateScore (calculateCanvasDistance x y p.coordX p.coordY)] := by
    rw [recordPlayerGuess, hcp] at hs
    exact hs
  rcases List.mem_append.mp hs' with h | h
  · exact hprev s h
  · have heq : s = calculateScore (calculateCanvasDistance x y p.coordX p.coordY) := by
      simpa using h
    rw [heq]
    exact calculateScore_bounds _ (calculateCanvasDistance_nonneg x y p.coordX p.coordY)

/-- The place used by the C10 witness. -/
noncomputable def exPlace : Place := ⟨"Taj Mahal", 100, 200⟩

/-- A fresh game state showing the Taj Mahal. -/
noncomputable def exPFSt : PFState := { currentPlace := some exPlace }

/-- Witness for C10: the score stored for a concrete perfect guess is within
bounds. -/
theorem recordPlayerGuess_score_bounds_witness :
    0 ≤ calculateScore (calculateCanvasDistance 100 200 100 200) ∧
    calculateScore (calculateCanvasDistance 100 200 100 200) ≤ 1000 := by
  have h := recordPlayerGuess_score_bounds exPFSt 100 200 exPlace rfl
    (by intro s hs; exact absurd hs (by simp [exPFSt]))
  exact h (calculateScore (calculateCanvasDistance 100 200 100 200))
    (by
      have hscores : (recordPlayerGuess exPFSt 100 200).2.scores
          = [calculateScore (calculateCanvasDistance 100 200 100 200)] := rfl
      rw [hscores]
      exact List.mem_singleton.mpr rfl)

/-- A concrete `MapState` with one region and a non-empty named-country set. -/
def exRegionSt : MapState :=
  { regionCountries := [("Europe", ["France"])],
    namedCountries := ["France"], currentRegion := some "Europe" }

/-- An SVG `path` element as seen by `MapModel._processCountryPaths`:
`id` property (empty string when absent) and the `name`, `fill`, `d` and
`class` attributes (`none` when the attribute is missing). -/
structure Fragment where
  fid : String
  nameAttr : Option String
  fillAttr : Option String
  dAttr : Option String
  classAttr : Option String
deriving DecidableEq, Repr

/-- `path.getAttribute('name') || id || 'Unknown'` (empty strings are falsy). -/
def effName (f : Fragment) : String :=
  let n := f.nameAttr.getD ""
  if n ≠ "" then n else if f.fid ≠ "" then f.fid else "Unknown"

/-- `path.getAttribute('fill') || '#ececec'`. -/
def effFill (f : Fragment) : String :=
  let c := f.fillAttr.getD ""
  if c ≠ "" then c else "#ececec"

/-- `path.getAttribute('class') || 'Unknown'`. -/
def effContinent (f : Fragment) : String :=
  let c := f.classAttr.getD ""
  if c ≠ "" then c else "Unknown"

/-- The loop body of `_processCountryPaths`: skip fragments without path
data; append the path to an existing country of the same name, otherwise
create a new country entry at the end of the registry. -/
def insertFragment (reg : List (String × Country)) (f : Fragment) :
    List (String × Country) :=
  match f.dAttr with
  | none => reg
  | some pd =>
    let name := effName f
    if hasKey reg name then
      reg.map (fun e =>
        if e.1 = name then (e.1, { e.2 with paths := e.2.paths ++ [pd] }) else e)
    else
      reg ++ [(name, { cid := f.fid, name := name, fill := effFill f,
                       paths := [pd], selected := false, isStart := false,
                       isEnd := false, continent := effContinent f })]

/-- The registry built by `_processCountryPaths` from the fragment list. -/
def processFragments (fs : List Fragment) : List (String × Country) :=
  fs.foldl insertFragment []

/-- `_processCountryPaths` itself: raises "No paths found in SVG" when the
document has zero `path` elements, otherwise builds the registry. -/
def processCountryPaths (fs : List Fragment) : Except String (List (String × Country)) :=
  if fs.length = 0 then Except.error "No paths found in SVG"
  else Except.ok (processFragments fs)

/-- `loadMapData` catches the processing error and reports success/failure to
its caller as a boolean. -/
def loadSucceeds (fs : List Fragment) : Bool :=
  match processCountryPaths fs with
  | Except.ok _ => true
  | Except.error _ => false

/-- The path list stored for `name`, empty when the country is absent. -/
def getPaths (reg : List (String × Country)) (name : String) : List String :=
  match mapGet reg name with
  | some c => c.paths
  | none => []

/-- The path data of one fragment, as a contribution to country `name`. -/
def fragContrib (f : Fragment) (name : String) : List String :=
  match f.dAttr with
  | none => []
  | some pd => if effName f = name then [pd] else []

/-- All path data of fragments whose effective name is `name`, in order. -/
def pathContrib (fs : List Fragment) (name : String) : List String :=
  fs.flatMap (fun f => fragContrib f name)

theorem mapGet_map_update (reg : List (String × Country)) (key name : String)
    (pd : String) :
    mapGet (reg.map (fun e =>
      if e.1 = key then (e.1, { e.2 with paths := e.2.paths ++ [pd] }) else e)) name =
    if name = key then
      (mapGet reg name).map (fun c => { c with paths := c.paths ++ [pd] })
    else mapGet reg name := by
  induction reg with
  | nil => by_cases h : name = key <;> simp [mapGet, h]
  | cons e t ih =>
    by_cases he : e.1 = name
    · subst he
      by_cases hk : e.1 = key
      · simp [mapGet, List.find?, hk]
      · simp [mapGet, List.find?, hk]
    · have hb : (e.1 == name) = false := by simpa using he
      by_cases hk : e.1 = key
      · subst hk
        have hnk : ¬ name = e.1 := fun h => he h.symm
        simpa [mapGet, List.find?, hb, hnk] using ih
      · simpa [mapGet, List.find?, hb, hk] using ih

theorem hasKey_false_mapGet {α : Type} (m : List (String × α)) (k : String)
    (h : hasKey m k = false) : mapGet m k = none := by
  simpa [hasKey, Option.isSome_iff_exists] using h

theorem getPaths_insertFragment (reg : List (String × Country)) (f : Fragment)
    (name : String) :
    getPaths (insertFragment reg f) name = getPaths reg name ++ fragContrib f name := by
  match hd : f.dAttr with
  | none => simp [insertFragment, fragContrib, hd]
  | some pd =>
    by_cases hk : hasKey reg (effName f) = true
    · simp only [insertFragment, hd, hk, if_pos]
      simp only [getPaths]
      rw [mapGet_map_update]
      by_cases hn : name = effName f
      · subst hn
        have hfc : fragContrib f (effName f) = [pd] := by simp [fragContrib, hd]
        rw [if_pos rfl, hfc]
        cases hg : mapGet reg (effName f) with
        | none => exact absurd hk (by simp [hasKey, hg])
        | some c => simp
      · have hfc : fragContrib f name = [] := by
          simp only [fragContrib, hd]
          exact if_neg (fun h => hn h.symm)
        rw [if_neg hn, hfc]
        simp
    · have hk' : hasKey reg (effName f) = false := by simpa using hk
      simp only [insertFragment, hd, hk', Bool.false_eq_true, if_false]
      simp only [getPaths]
      rw [mapGet_append]
      by_cases hn : name = effName f
      · subst hn
        have hnone : mapGet reg (effName f) = none :=
          hasKey_false_mapGet reg (effName f) hk'
        have hfc : fragContrib f (effName f) = [pd] := by simp [fragContrib, hd]
        rw [hnone, hfc]
        simp [mapGet, List.find?]
      · have hb : (effName f == name) = false := by
          simpa using fun h => hn h.symm
        have hfc : fragContrib f name = [] := by
          simp only [fragContrib, hd]
          exact if_neg (fun h => hn h.symm)
        rw [hfc]
        cases hg : mapGet reg name with
        | none => simp [hg, mapGet, List.find?, hb]
        | some c => simp [hg]

theorem getPaths_foldl (fs : List Fragment) :
    ∀ (acc : List (String × Country)) (name : String),
    getPaths (fs.foldl insertFragment acc) name =
      getPaths acc name ++ pathContrib fs name := by
  induction fs with
  | nil => intro acc name; simp [pathContrib]
  | cons f t ih =>
    intro acc name
    simp only [List.foldl_cons]
    rw [ih, getPaths_insertFragment]
    simp [pathContrib, List.append_assoc]

end Geoquizz

namespace Geoquizz

/-- Claim C6: loading geometry groups fragments by exact-string name — the
path list stored for every name is exactly the sequence of path data of the
fragments carrying that name (first creates, later ones append); in
particular two fragments both named "Japan" give "Japan" a path list of
length 2. -/
theorem processFragments_groups_by_name :
    (∀ (fs : List Fragment) (name : String),
      getPaths (processFragments fs) name = pathContrib fs name) ∧
    (getPaths (processFragments
        [⟨"jp1", some "Japan", some "#aabbcc", some "M0 0 L1 1", some "Asia"⟩,
         ⟨"jp2", some "Japan", none, some "M2 2 L3 3", none⟩]) "Japan").length = 2 := by
  constructor
  · intro fs name
    rw [processFragments, getPaths_foldl]
    simp [getPaths, mapGet]
  · decide

/-- Counterexample to claim C7 as stated: a geometry input with a single
path element that carries no `d` attribute yields zero countries, yet
`_processCountryPaths` does not raise (it only checks for zero path
elements), so the load succeeds with an empty registry. -/
theorem load_zeroCountries_counterexample :
    processCountryPaths [⟨"ghost", some "Ghost", none, none, none⟩]
      = Except.ok [] ∧
    loadSucceeds [⟨"ghost", some "Ghost", none, none, none⟩] = true ∧
    processFragments [⟨"ghost", some "Ghost", none, none, none⟩] = [] := by
  refine ⟨rfl, rfl, rfl⟩

/-- Claim C7 (amended): the load fails with the "No paths found in SVG" error
exactly when the geometry input contains zero path elements (in which case
the registry is indeed empty); an input whose fragments all lack path data
yields zero countries without a load failure. -/
theorem load_fails_iff_no_paths :
    ∀ (fs : List Fragment),
      (loadSucceeds fs = false ↔ fs = []) ∧
      (fs = [] → processFragments fs = []) := by
  intro fs
  constructor
  · cases fs with
    | nil => simp [loadSucceeds, processCountryPaths]
    | cons f t => simp [loadSucceeds, processCountryPaths]
  · intro h; subst h; rfl

/-- Witness for amended C7 at concrete inputs: the empty input fails to load,
and a one-fragment input loads. -/
theorem load_fails_iff_no_paths_witness :
    (loadSucceeds [] = false) ∧
    ¬ loadSucceeds [⟨"fr", some "France", none, some "M0 0", some "Europe"⟩] = false := by
  constructor
  · exact (load_fails_iff_no_paths []).1.mpr rfl
  · intro h
    exact absurd ((load_fails_iff_no_paths
      [⟨"fr", some "France", none, some "M0 0", some "Europe"⟩]).1.mp h) (by decide)

/-- Witness for C5: on a concrete state whose region index lacks "Nonexistent",
`setRegion` fails and leaves the state (current region, named set) unchanged,
and selecting "World" succeeds with the named set cleared. -/
theorem setRegion_spec_witness :
    (setRegion exRegionSt "Nonexistent").2 = exRegionSt ∧
    (setRegion exRegionSt "World").2.namedCountries = [] := by
  constructor
  · exact (setRegion_spec exRegionSt "Nonexistent").2.2.1 (by decide)
  · exact ((setRegion_spec exRegionSt "World").2.1 (by decide)).1

end Geoquizz
